import Mathlib

/-!
Shallow embedding of the process-management core of a small teaching OS
kernel (stride scheduler, waitpid, mmap/munmap, syscall accounting,
fd-table syscalls), together with proofs checking the natural-language
specification against the code.

Sources embedded:
* `src/os/src/task/manager.rs`   — `TaskManager::fetch` (stride scheduling)
* `src/os/src/task/mod.rs`       — `TaskManager::sys_call_add`, `TaskManager::munmap`
* `src/os/src/syscall/process.rs` — `sys_waitpid`, `sys_mmap`, `sys_munmap`,
  `sys_set_priority`, `sys_get_time`, `sys_task_info`
* `src/os/src/syscall/fs.rs`     — `sys_fstat`, `sys_close`, `sys_read`, `sys_write`

Parts of the repository that the syscall layer calls but whose code is not
in the surveyed sources (`crate::mm`, `crate::config`) are modelled from the
specification; each such definition carries a doc comment starting with
`Modelled from the spec:`.
-/

namespace OS

/-- Page size; the syscall layer checks alignment literally with `% 4096`
(`src/os/src/syscall/process.rs`). -/
def PAGE_SIZE : Nat := 4096

/-- Modelled from the spec: the `BIGSTRIDE` constant (`crate::config`, not among
the surveyed sources).  The spec only says it is "the large constant divided by
priority to compute `pass`"; no theorem below depends on its numeric value. -/
def BIGSTRIDE : Nat := 0x10000000

/-- Modelled from the spec: the fixed numeric syscall codes ("fixed numeric
codes observed in the design", `crate::syscall`, not among the surveyed
sources).  The values follow the Linux RISC-V convention the design uses; no
theorem depends on the particular values, only on their distinctness. -/
def SYSCALL_SET_PRIORITY : Nat := 140

/-- Modelled from the spec: syscall code of `get_time`. -/
def SYSCALL_GET_TIME : Nat := 169

/-- Modelled from the spec: syscall code of `munmap`. -/
def SYSCALL_MUNMAP : Nat := 215

/-- Modelled from the spec: syscall code of `fork`. -/
def SYSCALL_FORK : Nat := 220

/-- Modelled from the spec: syscall code of `mmap`. -/
def SYSCALL_MMAP : Nat := 222

/-- Modelled from the spec: syscall code of `spawn`. -/
def SYSCALL_SPAWN : Nat := 400

/-- Modelled from the spec: syscall code of `task_info`. -/
def SYSCALL_TASK_INFO : Nat := 410

/-- Task status, from `TaskStatus` (`src/os/src/task/mod.rs` re-exports it from
`task/task.rs`).  The chapter-3 style code in `task/mod.rs` uses
`Ready`/`Running`/`Exited`; the process code in `syscall/process.rs` also uses
`Zombie` (via `is_zombie`).  The spec lists {Ready, Running, Zombie}. -/
inductive TaskStatus
  | Ready
  | Running
  | Zombie
  | Exited
deriving DecidableEq, Repr

/-- A mapped virtual-memory area, identified by its half-open range of virtual
page numbers `[start_vpn, end_vpn)` and its permission bits (the fields read
through `get_start`/`get_end` in `sys_mmap`'s overlap check). -/
structure MapArea where
  start_vpn : Nat
  end_vpn : Nat
  perm : Nat
deriving DecidableEq, Repr

/-- `VirtAddr::floor`: the virtual page number containing `va`. -/
def va_floor (va : Nat) : Nat := va / PAGE_SIZE

/-- `VirtAddr::ceil`: the first virtual page number at or above `va`. -/
def va_ceil (va : Nat) : Nat := (va + (PAGE_SIZE - 1)) / PAGE_SIZE

/-- Modelled from the spec: `MapPermission::U`, the fixed "user-accessible"
permission bit (`crate::mm`, not among the surveyed sources); the spec says the
permission is "a left-shift of `port` plus a fixed user-accessible bit".  The
RISC-V PTE convention the design follows places U at bit 4. -/
def U_BIT : Nat := 16

/-- Modelled from the spec: `MemorySet::insert_framed_area` (`crate::mm`, not
among the surveyed sources): "allocates physical backing for each page in
range, maps it with the given permission set, and registers the area",
rounding `floor(start)`, `ceil(end)`.  Only the registered area is modelled;
physical frames are not observable through any claim. -/
def insert_framed_area (ms : List MapArea) (start_va end_va perm : Nat) :
    List MapArea :=
  ms ++ [⟨va_floor start_va, va_ceil end_va, perm⟩]

/-- The state of the current task that the embedded syscalls read and write:
status, per-syscall counters, scheduling fields, first-schedule time and the
address space's set of mapped areas (`TaskControlBlock` fields named in the
surveyed sources). -/
structure TCB where
  status : TaskStatus
  call_count : Nat → Nat
  priority : Int
  stride : Nat
  pass : Nat
  start_time : Nat
  memory_set : List MapArea

/-- `TaskManager::sys_call_add` (`src/os/src/task/mod.rs:192`): increment the
current task's `call_count[num]` by one, but only when its status is
`Running`.  The syscall handlers in `src/os/src/syscall/process.rs` invoke it
with their own syscall number and the current task. -/
def sys_call_add (t : TCB) (num : Nat) : TCB :=
  if t.status = TaskStatus.Running then
    { t with call_count :=
        fun n => if n = num then t.call_count n + 1 else t.call_count n }
  else t

/-- `sys_mmap` (`src/os/src/syscall/process.rs:154`):
`_port & !0b111 != 0 || _start % 4096 != 0 || _port & 0x7 == 0` rejects with
-1; otherwise the page range is `floor(start) .. ceil(start+len)`, the
permission is `MapPermission::from_bits((_port as u8) << 1)` with `U` set
(`from_bits` cannot fail here since `port < 8` in this branch), the syscall is
counted, the overlap test `area.get_start() < page_ceil && area.get_end() >
page_floor` rejects with -1, and otherwise the framed area is inserted and 0
returned.  `0xfffffffffffffff8` is the 64-bit value of `!0b111usize`. -/
def sys_mmap (t : TCB) (start len port : Nat) : Int × TCB :=
  if port &&& 0xfffffffffffffff8 ≠ 0 ∨ start % PAGE_SIZE ≠ 0 ∨ port &&& 7 = 0
  then (-1, t)
  else
    let page_floor := va_floor start
    let page_ceil := va_ceil (start + len)
    let permission := (((port % 256) <<< 1) % 256) ||| U_BIT
    let t1 := sys_call_add t SYSCALL_MMAP
    if t1.memory_set.any (fun a =>
        decide (a.start_vpn < page_ceil) && decide (page_floor < a.end_vpn))
    then (-1, t1)
    else (0, { t1 with memory_set :=
                insert_framed_area t1.memory_set start (start + len) permission })

/-- Whether the mapped area `a` contains the virtual page `p`. -/
def areaCovers (a : MapArea) (p : Nat) : Bool :=
  decide (a.start_vpn ≤ p) && decide (p < a.end_vpn)

/-- The pieces of area `a` left after unmapping pages `[l, r)`: the part below
`l` and the part at or above `r` (an area is removed entirely, kept, or
split). -/
def clipArea (a : MapArea) (l r : Nat) : List MapArea :=
  (if a.start_vpn < min a.end_vpn l then
    [⟨a.start_vpn, min a.end_vpn l, a.perm⟩] else []) ++
  (if max a.start_vpn r < a.end_vpn then
    [⟨max a.start_vpn r, a.end_vpn, a.perm⟩] else [])

/-- Modelled from the spec: `MemorySet::unmap` (`crate::mm`, not among the
surveyed sources): "requires `start` and `len` page-aligned; releases the
physical backing and removes (or splits) mapped areas intersecting
`[start, start+len)`.  Fails if any page in the range is unmapped, or if
alignment does not hold."  Failure is modelled as returning `-1` with the area
set unchanged, success as `0` with every area clipped against the range. -/
def unmap (ms : List MapArea) (start len : Nat) : Int × List MapArea :=
  if start % PAGE_SIZE ≠ 0 ∨ len % PAGE_SIZE ≠ 0 then (-1, ms)
  else
    let l := start / PAGE_SIZE
    let r := (start + len) / PAGE_SIZE
    if (List.range (r - l)).all (fun k => ms.any (fun a => areaCovers a (l + k)))
    then (0, ms.flatMap (fun a => clipArea a l r))
    else (-1, ms)

/-- `sys_munmap` (`src/os/src/syscall/process.rs:183`): reject with -1 unless
`_start % 4096 == 0 && _len % 4096 == 0`; then count the syscall, call
`memset.unmap(_start, _len)` — whose returned status the source discards —
and return 0 unconditionally. -/
def sys_munmap (t : TCB) (start len : Nat) : Int × TCB :=
  if start % PAGE_SIZE ≠ 0 ∨ len % PAGE_SIZE ≠ 0 then (-1, t)
  else
    let t1 := sys_call_add t SYSCALL_MUNMAP
    ((0 : Int), { t1 with memory_set := (unmap t1.memory_set start len).2 })

/-- `TaskManager::munmap` (`src/os/src/task/mod.rs:150`): delegates to
`memset.unmap(start, len)` and returns its result unchanged. -/
def do_munmap (ms : List MapArea) (start len : Nat) : Int × List MapArea :=
  unmap ms start len

/-- `sys_set_priority` (`src/os/src/syscall/process.rs:281`): `_prio < 2`
rejects with -1 before any state change; otherwise the syscall is counted,
`set_priority(_prio)` and `set_pass(BIGSTRIDE / (_prio as usize))` update the
current task, and `_prio` is returned. -/
def sys_set_priority (t : TCB) (prio : Int) : Int × TCB :=
  if prio < 2 then (-1, t)
  else
    let t1 := sys_call_add t SYSCALL_SET_PRIORITY
    (prio, { t1 with priority := prio, pass := BIGSTRIDE / prio.toNat })

/-- A user address space's page table, as the list of its (virtual page
number, physical page number) mappings. -/
abbrev PageTable := List (Nat × Nat)

/-- Look up the physical page number mapped to `vpn`, if any. -/
def lookupVpn (pt : PageTable) (vpn : Nat) : Option Nat :=
  (pt.find? (fun e => e.1 == vpn)).map (fun e => e.2)

/-- Translate one virtual byte address through the page table. -/
def translate_byte (pt : PageTable) (va : Nat) : Option Nat :=
  (lookupVpn pt (va / PAGE_SIZE)).map
    (fun ppn => ppn * PAGE_SIZE + va % PAGE_SIZE)

/-- The physical byte addresses touched by writing an `n`-byte structure
through `translated_refmut` (`crate::mm`, not among the surveyed sources, used
as `let ts = translated_refmut(token, _ts); *ts = time_val;`): it yields one
`&mut T` at the physical address of the structure's first byte, so the
assignment lands on `n` physically consecutive bytes; `none` models the
panic of its `unwrap` when the first page is unmapped. -/
def refmut_write_addrs (pt : PageTable) (va n : Nat) : Option (List Nat) :=
  (translate_byte pt va).map (fun pa => (List.range n).map (fun i => pa + i))

/-- The physical byte addresses produced by the byte-span translation path
(`translated_byte_buffer`, used by `sys_read`/`sys_write`): every byte is
translated through its own page, so a structure straddling a page boundary
becomes a discontiguous ordered sequence of spans. -/
def byte_buffer_addrs (pt : PageTable) (va n : Nat) : Option (List Nat) :=
  (List.range n).mapM (fun i => translate_byte pt (va + i))

/-- Byte size of `TimeVal { sec: usize, usec: usize }`. -/
def TIMEVAL_SIZE : Nat := 16

/-- Modelled from the spec: `MAX_SYSCALL_NUM` (`crate::config`, not among the
surveyed sources).  No theorem depends on its value. -/
def MAX_SYSCALL_NUM : Nat := 500

/-- Byte size of `TaskInfo { status, syscall_times: [u32; MAX_SYSCALL_NUM],
time: usize }`. -/
def TASKINFO_SIZE : Nat := 8 + 4 * MAX_SYSCALL_NUM + 8

/-- The physical byte addresses that `sys_get_time`
(`src/os/src/syscall/process.rs:115`) writes its `TimeVal` result to: it
obtains a single reference with `translated_refmut(token, _ts)` and assigns
the whole structure through it. -/
def sys_get_time_write_addrs (pt : PageTable) (ts_ptr : Nat) :
    Option (List Nat) :=
  refmut_write_addrs pt ts_ptr TIMEVAL_SIZE

/-- The physical byte addresses that `sys_task_info`
(`src/os/src/syscall/process.rs:137`) writes its `TaskInfo` result to, through
`translated_refmut(token, _ti)`. -/
def sys_task_info_write_addrs (pt : PageTable) (ti_ptr : Nat) :
    Option (List Nat) :=
  refmut_write_addrs pt ti_ptr TASKINFO_SIZE

/-- The `TimeVal` structure written by `sys_get_time`. -/
structure TimeVal where
  sec : Nat
  usec : Nat
deriving DecidableEq, Repr

/-- The values written into the user's `TaskInfo` by `sys_task_info`. -/
structure TaskInfoVal where
  status : TaskStatus
  syscall_times : Nat → Nat
  time : Nat

/-- `sys_get_time` (`src/os/src/syscall/process.rs:115`): count the syscall,
translate `_ts` (the `unwrap` inside `translated_refmut` panics — modelled as
`none` — if the page is unmapped), and write `sec = us / 1_000_000`,
`usec = us % 1_000_000`, returning 0.  There is no null-pointer check. -/
def sys_get_time (t : TCB) (pt : PageTable) (ts_ptr : Nat) (now_us : Nat) :
    Option (Int × TCB × TimeVal) :=
  let t1 := sys_call_add t SYSCALL_GET_TIME
  match translate_byte pt ts_ptr with
  | none => none
  | some _ => some (0, t1, ⟨now_us / 1000000, now_us % 1000000⟩)

/-- `sys_task_info` (`src/os/src/syscall/process.rs:137`): count the syscall,
translate `_ti` (panic — modelled as `none` — if the page is unmapped), then
write `syscall_times = get_sys_call()` (the counters after the increment),
`status = TaskStatus::Running`, `time = get_total_time()` (wall-clock
milliseconds minus the task's `start_time`), returning 0.  There is no
null-pointer check anywhere in the handler. -/
def sys_task_info (t : TCB) (pt : PageTable) (ti_ptr : Nat) (now_ms : Nat) :
    Option (Int × TCB × TaskInfoVal) :=
  let t1 := sys_call_add t SYSCALL_TASK_INFO
  match translate_byte pt ti_ptr with
  | none => none
  | some _ =>
    some (0, t1, ⟨TaskStatus.Running, t1.call_count, now_ms - t1.start_time⟩)

/-- What the stride scheduler reads from a `TaskControlBlock` through
`get_stride`/`get_pass` (`src/os/src/task/manager.rs`). -/
structure SchedTCB where
  pid : Nat
  stride : Nat
  pass : Nat
deriving DecidableEq, Repr

/-- Default element used with `List.getD`. -/
def dSched : SchedTCB := ⟨0, 0, 0⟩

/-- The scan loop of `TaskManager::fetch` (`src/os/src/task/manager.rs:26`):
`for (index, task) in queue.iter().enumerate() { if stride < min_stride {
min_index = index; min_stride = stride } }`, processing the strides `l`
starting at position `i` with accumulator `acc = (min_index, min_stride)`. -/
def minIdxFrom : List Nat → Nat → Nat × Nat → Nat × Nat
  | [], _, acc => acc
  | s :: rest, i, acc => minIdxFrom rest (i + 1) (if s < acc.2 then (i, s) else acc)

/-- `TaskManager::fetch` (`src/os/src/task/manager.rs:26`): `None` on an empty
queue; otherwise scan for the task of minimum stride starting from
`(0, queue[0].stride)`, add that task's `pass` to its `stride`, remove it from
the queue and return it. -/
def fetch (q : List SchedTCB) : Option (SchedTCB × List SchedTCB) :=
  match q with
  | [] => none
  | t0 :: _ =>
    let mi := (minIdxFrom (q.map SchedTCB.stride) 0 (0, t0.stride)).1
    let t := q.getD mi t0
    some ({ t with stride := t.stride + t.pass }, q.eraseIdx mi)

/-- What `sys_waitpid` reads from a child's `TaskControlBlock`. -/
structure ChildPCB where
  pid : Nat
  is_zombie : Bool
  exit_code : Int
deriving DecidableEq, Repr

/-- Default element used with `List.getD`. -/
def dChild : ChildPCB := ⟨0, false, 0⟩

/-- The value of `pid as usize` for an `isize` argument `pid`. -/
def usize_of_int (x : Int) : Nat := (x % (2 ^ 64)).toNat

/-- The child-matching test of `sys_waitpid`
(`src/os/src/syscall/process.rs:76`): `pid == -1 || pid as usize ==
p.getpid()`. -/
def pid_match (pid : Int) (p : ChildPCB) : Bool :=
  pid == -1 || usize_of_int pid == p.pid

/-- The `children.iter().enumerate().find(|(_, p)| p.is_zombie() && (pid == -1
|| pid as usize == p.getpid()))` scan of `sys_waitpid`, with `i` the index of
the first listed child. -/
def find_zombie_from (pid : Int) : List ChildPCB → Nat → Option (Nat × ChildPCB)
  | [], _ => none
  | p :: rest, i =>
    if p.is_zombie && pid_match pid p then some (i, p)
    else find_zombie_from pid rest (i + 1)

/-- `sys_waitpid` (`src/os/src/syscall/process.rs:76`): -1 when no child
matches `pid`; otherwise find the first matching Zombie child, remove it from
`children`, write its `exit_code` through the translated `exit_code_ptr`
(third component: the value written, `none` when nothing is written) and
return its pid; -2 when a child matches but none is a Zombie. -/
def sys_waitpid (children : List ChildPCB) (pid : Int) :
    Int × List ChildPCB × Option Int :=
  if !(children.any (fun p => pid_match pid p)) then (-1, children, none)
  else
    match find_zombie_from pid children 0 with
    | some (idx, p) =>
      ((p.pid : Int), children.eraseIdx idx, some p.exit_code)
    | none => (-2, children, none)

/-- What the fd-table syscalls read from a file handle: the `readable`/
`writable` flags, an opaque `Stat` payload written by `stat`, and the values
returned by `read`/`write` (the file collaborator's behaviour, outside the
core). -/
structure OSFile where
  readable : Bool
  writable : Bool
  stat_val : Nat
  read_ret : Int
  write_ret : Int
deriving DecidableEq, Repr

/-- A task's fd table: an index-addressable list of optional file handles. -/
abbrev FdTable := List (Option OSFile)

/-- `sys_fstat` (`src/os/src/syscall/fs.rs:79`): indexes
`fd_table[_fd]` with no bounds check — out-of-range indexing of the `Vec`
panics, modelled as `none`.  In range: an empty slot returns -1 (nothing
written), a full slot has its `Stat` written through the translated `_st`
(second component: the value written) and returns 0. -/
def sys_fstat (tbl : FdTable) (fd : Nat) : Option (Int × Option Nat) :=
  if h : fd < tbl.length then
    match tbl.get ⟨fd, h⟩ with
    | some f => some (0, some f.stat_val)
    | none => some (-1, none)
  else none

/-- `sys_close` (`src/os/src/syscall/fs.rs:64`): -1 when `fd >=
fd_table.len()` or the slot is empty; otherwise `take()` empties the slot and
0 is returned. -/
def sys_close (tbl : FdTable) (fd : Nat) : Int × FdTable :=
  if tbl.length ≤ fd then (-1, tbl)
  else
    match tbl.getD fd none with
    | none => (-1, tbl)
    | some _ => (0, tbl.set fd none)

/-- `sys_write` (`src/os/src/syscall/fs.rs:6`): -1 when `fd >=
fd_table.len()`, when the slot is empty, or when the file is not writable;
otherwise the file collaborator's `write` result is returned. -/
def sys_write (tbl : FdTable) (fd : Nat) : Int :=
  if tbl.length ≤ fd then -1
  else
    match tbl.getD fd none with
    | some f => if !f.writable then -1 else f.write_ret
    | none => -1

/-- `sys_read` (`src/os/src/syscall/fs.rs:27`): -1 when `fd >=
fd_table.len()`, when the slot is empty, or when the file is not readable;
otherwise the file collaborator's `read` result is returned. -/
def sys_read (tbl : FdTable) (fd : Nat) : Int :=
  if tbl.length ≤ fd then -1
  else
    match tbl.getD fd none with
    | some f => if !f.readable then -1 else f.read_ret
    | none => -1

/-- A concrete Running task with zeroed counters, priority 16, stride 7,
pass 3, no mapped areas; used as a test fixture. -/
def sampleTCB : TCB := ⟨TaskStatus.Running, fun _ => 0, 16, 7, 3, 0, []⟩

/-- The same fixture in the Ready state. -/
def readyTCB : TCB := ⟨TaskStatus.Ready, fun _ => 0, 16, 7, 3, 0, []⟩

/-- A Running fixture whose address space already maps virtual pages
`[0, 2)`. -/
def mappedTCB : TCB := ⟨TaskStatus.Running, fun _ => 0, 16, 7, 3, 0, [⟨0, 2, 18⟩]⟩

/-- A page table mapping virtual page 0 to physical page 5 and virtual page 1
to the non-adjacent physical page 9; used as a test fixture. -/
def straddlePT : PageTable := [(0, 5), (1, 9)]

/-- A two-slot fd table fixture: slot 0 holds a readable/writable file with
`Stat` payload 77, slot 1 is empty. -/
def fdTblW : FdTable := [some ⟨true, true, 77, 5, 6⟩, none]

/-! ### Generic list helpers -/

theorem getD_eq_getElem_of_lt {α : Type} (l : List α) (d : α) {n : Nat}
    (h : n < l.length) : l.getD n d = l[n] := by
  simp [List.getD_eq_getElem?_getD, List.getElem?_eq_getElem h]

theorem getD_map_stride (l : List SchedTCB) (d : SchedTCB) {n : Nat}
    (h : n < l.length) :
    (l.map SchedTCB.stride).getD n 0 = (l.getD n d).stride := by
  rw [getD_eq_getElem_of_lt l d h,
    getD_eq_getElem_of_lt (l.map SchedTCB.stride) 0 (by simpa using h)]
  simp

/-! ### The stride scheduler's scan loop -/

theorem minIdxFrom_min (l : List Nat) :
    ∀ (i : Nat) (acc : Nat × Nat),
      (minIdxFrom l i acc).2 ≤ acc.2 ∧ ∀ s ∈ l, (minIdxFrom l i acc).2 ≤ s := by
  induction l with
  | nil => intro i acc; simp [minIdxFrom]
  | cons s rest ih =>
    intro i acc
    have hbranch : (if s < acc.2 then (i, s) else acc).2 ≤ acc.2 ∧
        (if s < acc.2 then (i, s) else acc).2 ≤ s := by
      by_cases h : s < acc.2 <;> simp [h] <;> omega
    obtain ⟨h1, h2⟩ := ih (i + 1) (if s < acc.2 then (i, s) else acc)
    refine ⟨le_trans h1 hbranch.1, ?_⟩
    intro x hx
    rcases List.mem_cons.mp hx with rfl | hx
    · exact le_trans h1 hbranch.2
    · exact h2 x hx

theorem minIdxFrom_attain (l : List Nat) :
    ∀ (i : Nat) (acc : Nat × Nat),
      minIdxFrom l i acc = acc ∨
      ∃ k, k < l.length ∧ (minIdxFrom l i acc).1 = i + k ∧
        (minIdxFrom l i acc).2 = l.getD k 0 ∧
        (minIdxFrom l i acc).2 < acc.2 ∧
        ∀ j, j < k → (minIdxFrom l i acc).2 < l.getD j 0 := by
  induction l with
  | nil => intro i acc; left; rfl
  | cons s rest ih =>
    intro i acc
    by_cases h : s < acc.2
    · have hstep : minIdxFrom (s :: rest) i acc = minIdxFrom rest (i + 1) (i, s) := by
        simp only [minIdxFrom]
        rw [if_pos h]
      rw [hstep]
      rcases ih (i + 1) (i, s) with heq | ⟨k, hk, h1, h2, h3, h4⟩
      · right
        refine ⟨0, by simp, ?_, ?_, ?_, ?_⟩
        · rw [heq]; simp
        · rw [heq]; rfl
        · rw [heq]; exact h
        · intro j hj; omega
      · right
        refine ⟨k + 1, by simp only [List.length_cons]; omega, ?_, ?_, ?_, ?_⟩
        · rw [h1]; omega
        · rw [h2]
          simp [List.getD_eq_getElem?_getD]
        · exact lt_trans h3 h
        · intro j hj
          match j with
          | 0 => exact h3
          | j' + 1 =>
            have := h4 j' (by omega)
            simpa [List.getD_eq_getElem?_getD] using this
    · have hstep : minIdxFrom (s :: rest) i acc = minIdxFrom rest (i + 1) acc := by
        simp only [minIdxFrom]
        rw [if_neg h]
      rw [hstep]
      rcases ih (i + 1) acc with heq | ⟨k, hk, h1, h2, h3, h4⟩
      · left; exact heq
      · right
        refine ⟨k + 1, by simp only [List.length_cons]; omega, ?_, ?_, ?_, ?_⟩
        · rw [h1]; omega
        · rw [h2]
          simp [List.getD_eq_getElem?_getD]
        · exact h3
        · intro j hj
          match j with
          | 0 =>
            have hs : (s :: rest).getD 0 0 = s := rfl
            rw [hs]
            exact lt_of_lt_of_le h3 (by omega)
          | j' + 1 =>
            have := h4 j' (by omega)
            simpa [List.getD_eq_getElem?_getD] using this

/-- Claim C1: for every non-empty ready queue, `fetch` returns the task with
the minimum current stride, breaking ties by queue order (the first occurrence
wins), removes exactly that task from the queue, and increments that task's
stride by its pass value before returning it; for an empty ready queue,
`fetch` returns an absent value. -/
theorem fetch_min_stride (q : List SchedTCB) :
    (q = [] → fetch q = none) ∧
    (q ≠ [] → ∃ mi, mi < q.length ∧
      (∀ j, j < q.length →
        (q.getD mi dSched).stride ≤ (q.getD j dSched).stride) ∧
      (∀ j, j < mi →
        (q.getD mi dSched).stride < (q.getD j dSched).stride) ∧
      fetch q = some
        (⟨(q.getD mi dSched).pid,
          (q.getD mi dSched).stride + (q.getD mi dSched).pass,
          (q.getD mi dSched).pass⟩, q.eraseIdx mi)) := by
  constructor
  · rintro rfl; rfl
  · intro hne
    match q, hne with
    | t0 :: rest, _ =>
      have hlen : (List.map SchedTCB.stride (t0 :: rest)).length =
          (t0 :: rest).length := by simp
      have hmin := minIdxFrom_min (List.map SchedTCB.stride (t0 :: rest)) 0
        (0, t0.stride)
      have hmem : ∀ j, j < (t0 :: rest).length →
          (List.map SchedTCB.stride (t0 :: rest)).getD j 0 ∈
            List.map SchedTCB.stride (t0 :: rest) := by
        intro j hj
        rw [getD_eq_getElem_of_lt _ 0 (by simpa using hj)]
        exact List.getElem_mem _
      have hfetch : ∀ m, m < (t0 :: rest).length →
          (minIdxFrom (List.map SchedTCB.stride (t0 :: rest)) 0 (0, t0.stride)).1 = m →
          fetch (t0 :: rest) = some
            (⟨((t0 :: rest).getD m dSched).pid,
              ((t0 :: rest).getD m dSched).stride + ((t0 :: rest).getD m dSched).pass,
              ((t0 :: rest).getD m dSched).pass⟩, (t0 :: rest).eraseIdx m) := by
        intro m hm hidx
        have hgd : (t0 :: rest).getD m t0 = (t0 :: rest).getD m dSched := by
          rw [getD_eq_getElem_of_lt _ t0 hm, getD_eq_getElem_of_lt _ dSched hm]
        have h0 : fetch (t0 :: rest) = some
            (⟨((t0 :: rest).getD
                (minIdxFrom (List.map SchedTCB.stride (t0 :: rest)) 0
                  (0, t0.stride)).1 t0).pid,
              ((t0 :: rest).getD
                (minIdxFrom (List.map SchedTCB.stride (t0 :: rest)) 0
                  (0, t0.stride)).1 t0).stride +
              ((t0 :: rest).getD
                (minIdxFrom (List.map SchedTCB.stride (t0 :: rest)) 0
                  (0, t0.stride)).1 t0).pass,
              ((t0 :: rest).getD
                (minIdxFrom (List.map SchedTCB.stride (t0 :: rest)) 0
                  (0, t0.stride)).1 t0).pass⟩,
             (t0 :: rest).eraseIdx
               (minIdxFrom (List.map SchedTCB.stride (t0 :: rest)) 0
                 (0, t0.stride)).1) := rfl
        rw [hidx, hgd] at h0
        exact h0
      rcases minIdxFrom_attain (List.map SchedTCB.stride (t0 :: rest)) 0
          (0, t0.stride) with heq | ⟨k, hk, h1, h2, h3, h4⟩
      · refine ⟨0, by simp, ?_, ?_, ?_⟩
        · intro j hj
          have hj' := hmin.2 _ (hmem j hj)
          rw [heq] at hj'
          rw [getD_map_stride (t0 :: rest) dSched hj] at hj'
          have h0' : ((t0 :: rest).getD 0 dSched).stride = t0.stride := rfl
          rw [h0']
          exact hj'
        · intro j hj; omega
        · exact hfetch 0 (by simp) (by rw [heq])
      · have hk' : k < (t0 :: rest).length := by
          rw [hlen] at hk; exact hk
        refine ⟨k, hk', ?_, ?_, ?_⟩
        · intro j hj
          have hj' := hmin.2 _ (hmem j hj)
          rw [h2] at hj'
          rw [getD_map_stride (t0 :: rest) dSched hk',
            getD_map_stride (t0 :: rest) dSched hj] at hj'
          exact hj'
        · intro j hj
          have hj' := h4 j hj
          rw [h2] at hj'
          rw [getD_map_stride (t0 :: rest) dSched hk',
            getD_map_stride (t0 :: rest) dSched (by omega : j < (t0 :: rest).length)]
            at hj'
          exact hj'
        · exact hfetch k hk' (h1.trans (Nat.zero_add k))

/-- Witness for C1 at the spec's example: ready tasks with strides
[10, 3, 7]; `fetch` returns the stride-3 task with its stride advanced by its
pass, removing it from the queue. -/
theorem fetch_min_stride_witness :
    ∃ mi, mi < ([⟨0, 10, 5⟩, ⟨1, 3, 2⟩, ⟨2, 7, 4⟩] : List SchedTCB).length ∧
      (∀ j, j < ([⟨0, 10, 5⟩, ⟨1, 3, 2⟩, ⟨2, 7, 4⟩] : List SchedTCB).length →
        (([⟨0, 10, 5⟩, ⟨1, 3, 2⟩, ⟨2, 7, 4⟩] : List SchedTCB).getD mi dSched).stride ≤
          (([⟨0, 10, 5⟩, ⟨1, 3, 2⟩, ⟨2, 7, 4⟩] : List SchedTCB).getD j dSched).stride) ∧
      (∀ j, j < mi →
        (([⟨0, 10, 5⟩, ⟨1, 3, 2⟩, ⟨2, 7, 4⟩] : List SchedTCB).getD mi dSched).stride <
          (([⟨0, 10, 5⟩, ⟨1, 3, 2⟩, ⟨2, 7, 4⟩] : List SchedTCB).getD j dSched).stride) ∧
      fetch [⟨0, 10, 5⟩, ⟨1, 3, 2⟩, ⟨2, 7, 4⟩] = some
        (⟨(([⟨0, 10, 5⟩, ⟨1, 3, 2⟩, ⟨2, 7, 4⟩] : List SchedTCB).getD mi dSched).pid,
          (([⟨0, 10, 5⟩, ⟨1, 3, 2⟩, ⟨2, 7, 4⟩] : List SchedTCB).getD mi dSched).stride +
            (([⟨0, 10, 5⟩, ⟨1, 3, 2⟩, ⟨2, 7, 4⟩] : List SchedTCB).getD mi dSched).pass,
          (([⟨0, 10, 5⟩, ⟨1, 3, 2⟩, ⟨2, 7, 4⟩] : List SchedTCB).getD mi dSched).pass⟩,
         ([⟨0, 10, 5⟩, ⟨1, 3, 2⟩, ⟨2, 7, 4⟩] : List SchedTCB).eraseIdx mi) :=
  (fetch_min_stride [⟨0, 10, 5⟩, ⟨1, 3, 2⟩, ⟨2, 7, 4⟩]).2 (by decide)

/-! ### The waitpid scan -/

theorem find_zombie_from_none (pid : Int) :
    ∀ (cs : List ChildPCB) (i : Nat),
      (∀ p ∈ cs, ¬(p.is_zombie = true ∧ pid_match pid p = true)) →
      find_zombie_from pid cs i = none := by
  intro cs
  induction cs with
  | nil => intro i _; rfl
  | cons p rest ih =>
    intro i hnone
    have hp := hnone p (by simp)
    have hcond : (p.is_zombie && pid_match pid p) = false := by
      cases hb : p.is_zombie <;> cases hm : pid_match pid p <;> simp_all
    show (if p.is_zombie && pid_match pid p then _ else _) = none
    rw [hcond]
    simp only [Bool.false_eq_true, if_false]
    exact ih (i + 1) (fun q hq => hnone q (by simp [hq]))

theorem find_zombie_from_first (pid : Int) :
    ∀ (cs : List ChildPCB) (i idx : Nat), idx < cs.length →
      (cs.getD idx dChild).is_zombie = true →
      pid_match pid (cs.getD idx dChild) = true →
      (∀ j, j < idx → ¬((cs.getD j dChild).is_zombie = true ∧
        pid_match pid (cs.getD j dChild) = true)) →
      find_zombie_from pid cs i = some (i + idx, cs.getD idx dChild) := by
  intro cs
  induction cs with
  | nil => intro i idx h; simp at h
  | cons p rest ih =>
    intro i idx hidx hz hm hfirst
    match idx with
    | 0 =>
      have hc : (p.is_zombie && pid_match pid p) = true := by
        have hg : (p :: rest).getD 0 dChild = p := rfl
        rw [hg] at hz hm
        simp [hz, hm]
      show (if p.is_zombie && pid_match pid p then _ else _) = _
      rw [hc]
      simp
    | idx' + 1 =>
      have hp : ¬(p.is_zombie = true ∧ pid_match pid p = true) := by
        have h0 := hfirst 0 (by omega)
        simpa using h0
      have hc : (p.is_zombie && pid_match pid p) = false := by
        cases hb : p.is_zombie <;> cases hmm : pid_match pid p <;> simp_all
      show (if p.is_zombie && pid_match pid p then _ else _) = _
      rw [hc]
      simp only [Bool.false_eq_true, if_false]
      have hrec := ih (i + 1) idx' (by simpa using hidx)
        (by simpa [List.getD_eq_getElem?_getD] using hz)
        (by simpa [List.getD_eq_getElem?_getD] using hm)
        (fun j hj => by
          simpa [List.getD_eq_getElem?_getD] using hfirst (j + 1) (by omega))
      have hgd : (p :: rest).getD (idx' + 1) dChild = rest.getD idx' dChild := by
        simp [List.getD_eq_getElem?_getD]
      have harith : i + 1 + idx' = i + (idx' + 1) := by omega
      rw [hgd, ← harith]
      exact hrec

/-- Claim C2: `sys_waitpid(pid, out_code_ptr)` returns -1 if no child matches
`pid` (`pid == -1` matches any child); returns -2 if at least one child
matches but no matching child is a Zombie; otherwise it selects the first
matching Zombie child in iteration order, removes it from the children list,
writes that child's `exit_code` through the translated pointer (the third
component of the result) and returns that child's pid. -/
theorem sys_waitpid_spec (children : List ChildPCB) (pid : Int) :
    (pid = -1 → ∀ p ∈ children, pid_match pid p = true) ∧
    ((∀ p ∈ children, pid_match pid p = false) →
      sys_waitpid children pid = (-1, children, none)) ∧
    ((∃ p ∈ children, pid_match pid p = true) →
      (∀ p ∈ children, pid_match pid p = true → p.is_zombie = false) →
      sys_waitpid children pid = (-2, children, none)) ∧
    (∀ idx, idx < children.length →
      (children.getD idx dChild).is_zombie = true →
      pid_match pid (children.getD idx dChild) = true →
      (∀ j, j < idx → ¬((children.getD j dChild).is_zombie = true ∧
        pid_match pid (children.getD j dChild) = true)) →
      sys_waitpid children pid =
        (((children.getD idx dChild).pid : Int), children.eraseIdx idx,
          some (children.getD idx dChild).exit_code)) := by
  refine ⟨?_, ?_, ?_, ?_⟩
  · rintro rfl p _
    simp [pid_match]
  · intro hall
    have hany : children.any (fun p => pid_match pid p) = false := by
      simp only [List.any_eq_false]
      intro p hp
      simp [hall p hp]
    simp [sys_waitpid, hany]
  · rintro ⟨p0, hp0, hmatch⟩ hnz
    have hany : children.any (fun p => pid_match pid p) = true :=
      List.any_eq_true.mpr ⟨p0, hp0, hmatch⟩
    have hfind : find_zombie_from pid children 0 = none := by
      refine find_zombie_from_none pid children 0 ?_
      rintro p hp ⟨hz, hm⟩
      have := hnz p hp hm
      rw [this] at hz
      cases hz
    simp [sys_waitpid, hany, hfind]
  · intro idx hidx hz hm hfirst
    have hmem : children.getD idx dChild ∈ children := by
      rw [getD_eq_getElem_of_lt _ dChild hidx]
      exact List.getElem_mem _
    have hany : children.any (fun p => pid_match pid p) = true :=
      List.any_eq_true.mpr ⟨children.getD idx dChild, hmem, hm⟩
    have hfind := find_zombie_from_first pid children 0 idx hidx hz hm hfirst
    rw [Nat.zero_add] at hfind
    simp [sys_waitpid, hany, hfind]

/-- Witness for C2: a parent with a non-Zombie child (pid 7) and a Zombie
child (pid 5, exit code 42); `waitpid(-1, _)` reaps the Zombie child, removes
it, writes 42, and returns 5. -/
theorem sys_waitpid_spec_witness :
    sys_waitpid [⟨7, false, 0⟩, ⟨5, true, 42⟩] (-1) =
      (((([⟨7, false, 0⟩, ⟨5, true, 42⟩] : List ChildPCB).getD 1 dChild).pid : Int),
        ([⟨7, false, 0⟩, ⟨5, true, 42⟩] : List ChildPCB).eraseIdx 1,
        some (([⟨7, false, 0⟩, ⟨5, true, 42⟩] : List ChildPCB).getD 1 dChild).exit_code) :=
  (sys_waitpid_spec [⟨7, false, 0⟩, ⟨5, true, 42⟩] (-1)).2.2.2 1 (by decide)
    (by decide) (by decide) (by decide)

/-! ### sys_call_add and the per-syscall counters -/

theorem sys_call_add_fields (t : TCB) (num : Nat) :
    (sys_call_add t num).status = t.status ∧
    (sys_call_add t num).priority = t.priority ∧
    (sys_call_add t num).stride = t.stride ∧
    (sys_call_add t num).pass = t.pass ∧
    (sys_call_add t num).start_time = t.start_time ∧
    (sys_call_add t num).memory_set = t.memory_set := by
  unfold sys_call_add
  split <;> simp

/-- Claim C7: `sys_set_priority(p)` returns -1 with no state change when
`p < 2`; when `p >= 2` it sets the current task's priority to `p`, sets
`pass = BIGSTRIDE / p`, leaves `stride` unchanged, and returns `p`. -/
theorem sys_set_priority_spec (t : TCB) (p : Int) :
    (p < 2 → sys_set_priority t p = (-1, t)) ∧
    (2 ≤ p →
      (sys_set_priority t p).1 = p ∧
      (sys_set_priority t p).2.priority = p ∧
      (sys_set_priority t p).2.pass = BIGSTRIDE / p.toNat ∧
      (sys_set_priority t p).2.stride = t.stride) := by
  constructor
  · intro h
    simp [sys_set_priority, h]
  · intro h
    have h' : ¬(p < 2) := by omega
    refine ⟨by simp [sys_set_priority, h'], by simp [sys_set_priority, h'],
      by simp [sys_set_priority, h'], ?_⟩
    simp only [sys_set_priority, h', if_false]
    exact (sys_call_add_fields t SYSCALL_SET_PRIORITY).2.2.1

/-- Witness for C7: the spec's example — `set_priority(1)` returns -1 leaving
the task untouched; `set_priority(4)` returns 4 and sets
`pass = BIGSTRIDE / 4` with `stride` unchanged. -/
theorem sys_set_priority_spec_witness :
    sys_set_priority sampleTCB 1 = (-1, sampleTCB) ∧
    ((sys_set_priority sampleTCB 4).1 = 4 ∧
      (sys_set_priority sampleTCB 4).2.priority = 4 ∧
      (sys_set_priority sampleTCB 4).2.pass = BIGSTRIDE / (4 : Int).toNat ∧
      (sys_set_priority sampleTCB 4).2.stride = sampleTCB.stride) :=
  ⟨(sys_set_priority_spec sampleTCB 1).1 (by norm_num),
    (sys_set_priority_spec sampleTCB 4).2 (by norm_num)⟩

/-- Claim C6 (amended): a task's `syscall_times[N]` changes only through
`sys_call_add`, which increments exactly index `N` by 1 while the task is
Running and is a no-op while it is Ready or Zombie; the handlers invoke it
only after their early argument validation, so an invocation of `sys_mmap`
with invalid arguments (here `port = 0`) leaves even `syscall_times[MMAP]`
unchanged. -/
theorem sys_call_add_count_spec (t : TCB) (N M : Nat) :
    (t.status = TaskStatus.Running →
      (sys_call_add t N).call_count N = t.call_count N + 1 ∧
      (M ≠ N → (sys_call_add t N).call_count M = t.call_count M)) ∧
    ((t.status = TaskStatus.Ready ∨ t.status = TaskStatus.Zombie) →
      sys_call_add t N = t) ∧
    ((sys_mmap t 0 4096 0).1 = -1 ∧ (sys_mmap t 0 4096 0).2 = t) := by
  refine ⟨?_, ?_, ?_, ?_⟩
  · intro h
    constructor
    · simp [sys_call_add, h]
    · intro hMN
      simp [sys_call_add, h, hMN]
  · intro h
    have hne : ¬(t.status = TaskStatus.Running) := by
      rcases h with h | h <;> rw [h] <;> simp
    simp [sys_call_add, hne]
  · rfl
  · rfl

/-- Witness for C6 (amended): a Running task's `get_time` counter goes from 0
to 1 while its `mmap` counter stays 0, and `sys_call_add` on a Ready task is
the identity. -/
theorem sys_call_add_count_spec_witness :
    ((sys_call_add sampleTCB SYSCALL_GET_TIME).call_count SYSCALL_GET_TIME =
        sampleTCB.call_count SYSCALL_GET_TIME + 1 ∧
      (SYSCALL_MMAP ≠ SYSCALL_GET_TIME →
        (sys_call_add sampleTCB SYSCALL_GET_TIME).call_count SYSCALL_MMAP =
          sampleTCB.call_count SYSCALL_MMAP)) ∧
    sys_call_add readyTCB SYSCALL_GET_TIME = readyTCB :=
  ⟨(sys_call_add_count_spec sampleTCB SYSCALL_GET_TIME SYSCALL_MMAP).1 rfl,
    (sys_call_add_count_spec readyTCB SYSCALL_GET_TIME SYSCALL_MMAP).2.1
      (Or.inl rfl)⟩

/-- Counterexample to C6 as stated ("for every syscall number N, the counter
increments by exactly 1 on each invocation of syscall N while Running"): the
fixture task is Running, yet invoking syscall MMAP via `sys_mmap` with
`port = 0` leaves `syscall_times[SYSCALL_MMAP]` at 0 instead of incrementing
it to 1, because the handler returns -1 before reaching `sys_call_add`
(`sys_fork` similarly contains no `sys_call_add` call at all). -/
theorem sys_call_times_claim_counterexample :
    sampleTCB.status = TaskStatus.Running ∧
    ¬((sys_mmap sampleTCB 0 4096 0).2.call_count SYSCALL_MMAP =
        sampleTCB.call_count SYSCALL_MMAP + 1) := by
  constructor
  · rfl
  · have h : (sys_mmap sampleTCB 0 4096 0).2 = sampleTCB := rfl
    rw [h]
    simp [sampleTCB]

/-! ### sys_mmap -/

theorem and_high_mask_eq_zero_iff {port : Nat} (h64 : port < 2 ^ 64) :
    port &&& 0xfffffffffffffff8 = 0 ↔ port < 8 := by
  constructor
  · intro h
    by_contra h8
    push_neg at h8
    have h8' : (2 : Nat) ^ 3 ≤ port := le_trans (by norm_num) h8
    obtain ⟨i, hi3, hbit⟩ := Nat.ge_two_pow_implies_high_bit_true h8'
    have hi64 : i < 64 := by
      by_contra hge
      push_neg at hge
      have hlt : port < 2 ^ i :=
        lt_of_lt_of_le h64 (Nat.pow_le_pow_right (by norm_num) hge)
      rw [Nat.testBit_lt_two_pow hlt] at hbit
      cases hbit
    have hmask : (0xfffffffffffffff8 : Nat).testBit i = true := by
      have hrepr : (0xfffffffffffffff8 : Nat) = (2 ^ 61 - 1) <<< 3 := by
        rw [Nat.shiftLeft_eq]
        norm_num
      rw [hrepr, Nat.testBit_shiftLeft]
      simp only [Nat.testBit_two_pow_sub_one, Bool.and_eq_true, decide_eq_true_eq]
      omega
    have hcontra := congrArg (fun x => x.testBit i) h
    simp only [Nat.testBit_and, hbit, hmask, Bool.and_self, Nat.zero_testBit]
      at hcontra
    cases hcontra
  · intro h
    apply Nat.eq_of_testBit_eq
    intro i
    simp only [Nat.testBit_and, Nat.zero_testBit]
    rcases lt_or_ge i 3 with hi | hi
    · have hm : (0xfffffffffffffff8 : Nat).testBit i = false := by
        interval_cases i <;> decide
      simp [hm]
    · have hp : port < 2 ^ i :=
        lt_of_lt_of_le h (le_trans (by norm_num)
          (Nat.pow_le_pow_right (by norm_num) hi))
      simp [Nat.testBit_lt_two_pow hp]

theorem sys_mmap_guard_fail (t : TCB) (start len port : Nat)
    (h : port &&& 0xfffffffffffffff8 ≠ 0 ∨ start % PAGE_SIZE ≠ 0 ∨
      port &&& 7 = 0) :
    sys_mmap t start len port = (-1, t) := by
  simp [sys_mmap, h]

theorem sys_mmap_overlap_fail (t : TCB) (start len port : Nat)
    (hg : ¬(port &&& 0xfffffffffffffff8 ≠ 0 ∨ start % PAGE_SIZE ≠ 0 ∨
      port &&& 7 = 0))
    (hov : t.memory_set.any (fun a =>
      decide (a.start_vpn < va_ceil (start + len)) &&
      decide (va_floor start < a.end_vpn)) = true) :
    sys_mmap t start len port = (-1, sys_call_add t SYSCALL_MMAP) := by
  have hms : (sys_call_add t SYSCALL_MMAP).memory_set = t.memory_set :=
    (sys_call_add_fields t SYSCALL_MMAP).2.2.2.2.2
  simp only [sys_mmap, hg, if_false]
  rw [hms, hov]
  simp

theorem sys_mmap_success (t : TCB) (start len port : Nat)
    (hg : ¬(port &&& 0xfffffffffffffff8 ≠ 0 ∨ start % PAGE_SIZE ≠ 0 ∨
      port &&& 7 = 0))
    (hov : t.memory_set.any (fun a =>
      decide (a.start_vpn < va_ceil (start + len)) &&
      decide (va_floor start < a.end_vpn)) = false) :
    sys_mmap t start len port =
      (0, { sys_call_add t SYSCALL_MMAP with
        memory_set := insert_framed_area t.memory_set start (start + len)
          ((((port % 256) <<< 1) % 256) ||| U_BIT) }) := by
  have hms : (sys_call_add t SYSCALL_MMAP).memory_set = t.memory_set :=
    (sys_call_add_fields t SYSCALL_MMAP).2.2.2.2.2
  simp only [sys_mmap, hg, if_false]
  rw [hms, hov]
  simp

/-- Claim C3 (amended): `sys_mmap(start, len, port)` returns -1 without
mutating the area set whenever `port` has a bit outside the low three, the low
three bits of `port` are all zero, `start` is not page-aligned, or some
existing area `[s, e)` satisfies the code's interval test
`s < ceil(start+len) ∧ floor(start) < e` (for a nonempty requested page range
this is exactly overlap, but an empty requested range — `len = 0` — may also
be rejected); otherwise it inserts a framed area over
`[floor(start), ceil(start+len))` with permission `port <<< 1` plus the
user-accessible bit and returns 0. -/
theorem sys_mmap_spec (t : TCB) (start len port : Nat) (h64 : port < 2 ^ 64) :
    ((8 ≤ port ∨ port % 8 = 0 ∨ start % PAGE_SIZE ≠ 0 ∨
        ∃ a ∈ t.memory_set, a.start_vpn < va_ceil (start + len) ∧
          va_floor start < a.end_vpn) →
      (sys_mmap t start len port).1 = -1 ∧
      (sys_mmap t start len port).2.memory_set = t.memory_set) ∧
    (¬(8 ≤ port ∨ port % 8 = 0 ∨ start % PAGE_SIZE ≠ 0 ∨
        ∃ a ∈ t.memory_set, a.start_vpn < va_ceil (start + len) ∧
          va_floor start < a.end_vpn) →
      (sys_mmap t start len port).1 = 0 ∧
      (sys_mmap t start len port).2.memory_set =
        t.memory_set ++
          [⟨va_floor start, va_ceil (start + len), (port <<< 1) ||| U_BIT⟩]) := by
  have hmod : port &&& 7 = port % 8 := by
    have h := Nat.and_pow_two_sub_one_eq_mod port 3
    norm_num at h
    exact h
  have hmask := and_high_mask_eq_zero_iff h64
  constructor
  · intro h
    by_cases hgd : port &&& 0xfffffffffffffff8 ≠ 0 ∨ start % PAGE_SIZE ≠ 0 ∨
        port &&& 7 = 0
    · rw [sys_mmap_guard_fail t start len port hgd]
      exact ⟨rfl, rfl⟩
    · have hover : ∃ a ∈ t.memory_set, a.start_vpn < va_ceil (start + len) ∧
          va_floor start < a.end_vpn := by
        push_neg at hgd
        obtain ⟨hg1, hg2, hg3⟩ := hgd
        rcases h with h | h | h | h
        · exact absurd (hmask.mp hg1) (by omega)
        · rw [hmod] at hg3; exact absurd h hg3
        · exact absurd hg2 h
        · exact h
      obtain ⟨a, ha, h1, h2⟩ := hover
      have hov : t.memory_set.any (fun a =>
          decide (a.start_vpn < va_ceil (start + len)) &&
          decide (va_floor start < a.end_vpn)) = true :=
        List.any_eq_true.mpr ⟨a, ha, by simp [h1, h2]⟩
      rw [sys_mmap_overlap_fail t start len port hgd hov]
      exact ⟨rfl, (sys_call_add_fields t SYSCALL_MMAP).2.2.2.2.2⟩
  · intro h
    push_neg at h
    obtain ⟨h1, h2, h3, h4⟩ := h
    have hgd : ¬(port &&& 0xfffffffffffffff8 ≠ 0 ∨ start % PAGE_SIZE ≠ 0 ∨
        port &&& 7 = 0) := by
      push_neg
      exact ⟨hmask.mpr h1, h3, by rw [hmod]; exact h2⟩
    have hov : t.memory_set.any (fun a =>
        decide (a.start_vpn < va_ceil (start + len)) &&
        decide (va_floor start < a.end_vpn)) = false := by
      refine List.any_eq_false.mpr ?_
      intro a ha
      simp only [Bool.and_eq_true, decide_eq_true_eq, not_and]
      intro hlt
      have := h4 a ha hlt
      omega
    rw [sys_mmap_success t start len port hgd hov]
    refine ⟨rfl, ?_⟩
    have hperm : (((port % 256) <<< 1) % 256) = port <<< 1 := by
      have hp : port % 256 = port := Nat.mod_eq_of_lt (by omega)
      have hs : port <<< 1 = port * 2 := by
        rw [Nat.shiftLeft_eq]
      rw [hp, hs]
      exact Nat.mod_eq_of_lt (by omega)
    show insert_framed_area t.memory_set start (start + len)
      ((((port % 256) <<< 1) % 256) ||| U_BIT) = _
    rw [hperm, insert_framed_area]

/-- Witness for C3 (amended): on the fixture with pages `[0, 2)` mapped,
`mmap(0x2000, 0x1000, 1)` (pages `[2, 3)`, read-only) succeeds and appends the
area with permission `(1 <<< 1) ||| U`; `mmap(0, 0x1000, 0)` fails with the
area set unchanged. -/
theorem sys_mmap_spec_witness :
    ((sys_mmap mappedTCB 8192 4096 1).1 = 0 ∧
      (sys_mmap mappedTCB 8192 4096 1).2.memory_set =
        mappedTCB.memory_set ++
          [⟨va_floor 8192, va_ceil (8192 + 4096), ((1 : Nat) <<< 1) ||| U_BIT⟩]) ∧
    ((sys_mmap mappedTCB 0 4096 0).1 = -1 ∧
      (sys_mmap mappedTCB 0 4096 0).2.memory_set = mappedTCB.memory_set) :=
  ⟨(sys_mmap_spec mappedTCB 8192 4096 1 (by norm_num)).2 (by decide),
    (sys_mmap_spec mappedTCB 0 4096 0 (by norm_num)).1 (Or.inr (Or.inl (by norm_num)))⟩

/-- Counterexample to C3 as stated: with pages `[0, 2)` already mapped,
`mmap(0x1000, 0, 1)` requests the empty page range `[1, 1)`, which overlaps no
existing area, and `port = 1` and `start = 0x1000` pass validation — so by the
claim the call should succeed — yet the code's interval test fires
(`0 < 1 ∧ 1 < 2`) and the call returns -1 without inserting. -/
theorem sys_mmap_claim_counterexample :
    ¬(((8 ≤ (1 : Nat) ∨ (1 : Nat) % 8 = 0 ∨ 4096 % PAGE_SIZE ≠ 0 ∨
        ∃ a ∈ mappedTCB.memory_set,
          max (va_floor 4096) a.start_vpn < min (va_ceil (4096 + 0)) a.end_vpn) →
        (sys_mmap mappedTCB 4096 0 1).1 = -1) ∧
      (¬(8 ≤ (1 : Nat) ∨ (1 : Nat) % 8 = 0 ∨ 4096 % PAGE_SIZE ≠ 0 ∨
        ∃ a ∈ mappedTCB.memory_set,
          max (va_floor 4096) a.start_vpn < min (va_ceil (4096 + 0)) a.end_vpn) →
        (sys_mmap mappedTCB 4096 0 1).1 = 0)) := by
  intro hclaim
  have hres : (sys_mmap mappedTCB 4096 0 1).1 = -1 := rfl
  have h0 := hclaim.2 (by decide)
  rw [hres] at h0
  cases h0

/-! ### sys_munmap and unmap -/

/-- Claim C4 (code-bug evidence): on an address space with nothing mapped,
`unmap(0x1000, 0x1000)` fails with -1 (page 1 is unmapped), and
`TaskManager::munmap` in `task/mod.rs` propagates that -1 — but `sys_munmap`
in `syscall/process.rs` discards `unmap`'s return value and returns 0.  The
alignment half of the claim does hold: `sys_munmap(0x1001, 0x1000)` returns
-1 with nothing changed. -/
theorem sys_munmap_discards_unmap_result :
    unmap ([] : List MapArea) 4096 4096 = (-1, []) ∧
    do_munmap ([] : List MapArea) 4096 4096 = (-1, []) ∧
    (sys_munmap sampleTCB 4096 4096).1 = 0 ∧
    (4097 : Nat) % PAGE_SIZE ≠ 0 ∧
    sys_munmap sampleTCB 4097 4096 = (-1, sampleTCB) := by
  refine ⟨rfl, rfl, rfl, ?_, rfl⟩
  norm_num [PAGE_SIZE]

theorem clipArea_disjoint (a : MapArea) (l r : Nat) :
    ∀ a' ∈ clipArea a l r, a'.end_vpn ≤ l ∨ r ≤ a'.start_vpn := by
  intro a' h
  unfold clipArea at h
  rw [List.mem_append] at h
  rcases h with h | h
  · split at h
    · simp only [List.mem_singleton] at h
      subst h
      left
      exact min_le_right _ _
    · simp at h
  · split at h
    · simp only [List.mem_singleton] at h
      subst h
      right
      exact le_max_right _ _
    · simp at h

theorem sys_munmap_memory_set (t : TCB) (start len : Nat)
    (hs : start % PAGE_SIZE = 0) (hl : len % PAGE_SIZE = 0) :
    (sys_munmap t start len).2.memory_set = (unmap t.memory_set start len).2 := by
  have halign : ¬(start % PAGE_SIZE ≠ 0 ∨ len % PAGE_SIZE ≠ 0) := by
    push_neg
    exact ⟨hs, hl⟩
  simp only [sys_munmap, halign, if_false]
  rw [(sys_call_add_fields t SYSCALL_MUNMAP).2.2.2.2.2]

theorem unmap_aligned_covered (ms : List MapArea) (start len : Nat)
    (hs : start % PAGE_SIZE = 0) (hl : len % PAGE_SIZE = 0)
    (hcov : (List.range ((start + len) / PAGE_SIZE - start / PAGE_SIZE)).all
      (fun k => ms.any (fun a => areaCovers a (start / PAGE_SIZE + k))) = true) :
    (unmap ms start len).2 =
      ms.flatMap (fun a =>
        clipArea a (start / PAGE_SIZE) ((start + len) / PAGE_SIZE)) := by
  have halign : ¬(start % PAGE_SIZE ≠ 0 ∨ len % PAGE_SIZE ≠ 0) := by
    push_neg
    exact ⟨hs, hl⟩
  simp only [unmap, halign, if_false, hcov, if_true]

theorem roundtrip_core (ms0 : List MapArea) (A : MapArea) (start len : Nat)
    (hs : start % PAGE_SIZE = 0) (hl : len % PAGE_SIZE = 0)
    (hAs : A.start_vpn = start / PAGE_SIZE)
    (hAe : A.end_vpn = (start + len) / PAGE_SIZE) :
    ∀ a ∈ (unmap (ms0 ++ [A]) start len).2,
      ∀ b, start ≤ b → b < start + len →
        ¬(a.start_vpn * PAGE_SIZE ≤ b ∧ b < a.end_vpn * PAGE_SIZE) := by
  have hps : PAGE_SIZE = 4096 := rfl
  have hcov : (List.range ((start + len) / PAGE_SIZE - start / PAGE_SIZE)).all
      (fun k => (ms0 ++ [A]).any
        (fun a => areaCovers a (start / PAGE_SIZE + k))) = true := by
    rw [List.all_eq_true]
    intro k hk
    rw [List.mem_range] at hk
    refine List.any_eq_true.mpr ⟨A, by simp, ?_⟩
    simp only [areaCovers, Bool.and_eq_true, decide_eq_true_eq, hAs, hAe]
    omega
  intro a hmem b hb1 hb2 hcover
  rw [unmap_aligned_covered (ms0 ++ [A]) start len hs hl hcov] at hmem
  obtain ⟨a0, _, hclip⟩ := List.mem_flatMap.mp hmem
  rcases clipArea_disjoint a0 (start / PAGE_SIZE) ((start + len) / PAGE_SIZE)
      a hclip with hd | hd <;>
    rw [hps] at hd hcover hs hl <;> omega

/-- Claim C5: for all page-aligned `start` and `len` such that
`mmap(start, len, port)` succeeds, performing `mmap(start, len, port)` and
then `munmap(start, len)` leaves the address space without any mapped area
covering any byte of `[start, start + len)`. -/
theorem mmap_munmap_roundtrip (t : TCB) (start len port : Nat)
    (hs : start % PAGE_SIZE = 0) (hl : len % PAGE_SIZE = 0)
    (hsucc : (sys_mmap t start len port).1 = 0) :
    ∀ a ∈ (sys_munmap (sys_mmap t start len port).2 start len).2.memory_set,
      ∀ b, start ≤ b → b < start + len →
        ¬(a.start_vpn * PAGE_SIZE ≤ b ∧ b < a.end_vpn * PAGE_SIZE) := by
  by_cases hgd : port &&& 0xfffffffffffffff8 ≠ 0 ∨ start % PAGE_SIZE ≠ 0 ∨
      port &&& 7 = 0
  · rw [sys_mmap_guard_fail t start len port hgd] at hsucc
    exact absurd hsucc (by norm_num)
  · cases hov : t.memory_set.any (fun a =>
        decide (a.start_vpn < va_ceil (start + len)) &&
        decide (va_floor start < a.end_vpn)) with
    | true =>
      rw [sys_mmap_overlap_fail t start len port hgd hov] at hsucc
      exact absurd hsucc (by norm_num)
    | false =>
      have hm := sys_mmap_success t start len port hgd hov
      have hceil : va_ceil (start + len) = (start + len) / PAGE_SIZE := by
        have h1 : start % 4096 = 0 := hs
        have h2 : len % 4096 = 0 := hl
        show (start + len + (4096 - 1)) / 4096 = (start + len) / 4096
        omega
      have hchain : (sys_munmap (sys_mmap t start len port).2 start len).2.memory_set =
          (unmap (t.memory_set ++ [⟨va_floor start, va_ceil (start + len),
            (((port % 256) <<< 1) % 256) ||| U_BIT⟩]) start len).2 := by
        rw [hm, sys_munmap_memory_set _ start len hs hl]
        rfl
      intro a hmem b hb1 hb2
      rw [hchain] at hmem
      exact roundtrip_core t.memory_set
        ⟨va_floor start, va_ceil (start + len),
          (((port % 256) <<< 1) % 256) ||| U_BIT⟩
        start len hs hl rfl hceil a hmem b hb1 hb2

/-- Witness for C5: `mmap(0x1000, 0x1000, 1)` on an empty address space
succeeds, and after `munmap(0x1000, 0x1000)` no area covers any byte of the
range. -/
theorem mmap_munmap_roundtrip_witness :
    (4096 : Nat) % PAGE_SIZE = 0 ∧ (sys_mmap sampleTCB 4096 4096 1).1 = 0 ∧
    (∀ a ∈ (sys_munmap (sys_mmap sampleTCB 4096 4096 1).2 4096 4096).2.memory_set,
      ∀ b, 4096 ≤ b → b < 4096 + 4096 →
        ¬(a.start_vpn * PAGE_SIZE ≤ b ∧ b < a.end_vpn * PAGE_SIZE)) :=
  ⟨rfl, rfl, mmap_munmap_roundtrip sampleTCB 4096 4096 1 rfl rfl rfl⟩

/-! ### The user-pointer translation path of sys_get_time / sys_task_info -/

/-- Claim C8 (amended): `sys_get_time` and `sys_task_info` write their results
through `translated_refmut` — a single contiguous run of physical bytes
starting at the translation of the structure's first address — not as a
sequence of per-page byte spans; the two paths agree when the structure lies
within one page but differ when it straddles two pages mapped to non-adjacent
frames. -/
theorem sys_time_info_refmut_contiguous :
    (∀ pt va, sys_get_time_write_addrs pt va =
      (translate_byte pt va).map
        (fun pa => (List.range TIMEVAL_SIZE).map (fun i => pa + i))) ∧
    (∀ pt va, sys_task_info_write_addrs pt va =
      (translate_byte pt va).map
        (fun pa => (List.range TASKINFO_SIZE).map (fun i => pa + i))) ∧
    sys_get_time_write_addrs straddlePT 0 =
      byte_buffer_addrs straddlePT 0 TIMEVAL_SIZE ∧
    sys_get_time_write_addrs straddlePT 4088 ≠
      byte_buffer_addrs straddlePT 4088 TIMEVAL_SIZE :=
  ⟨fun _ _ => rfl, fun _ _ => rfl, by decide, by decide⟩

set_option maxRecDepth 100000 in
/-- Counterexample to C8 as stated: a `TimeVal` at virtual address 4088
straddles pages 0 and 1 of the fixture page table (which maps them to the
non-adjacent frames 5 and 9); the byte-span path is defined there, yet the
addresses actually written by `sys_get_time` (one physically contiguous run)
differ from it, and likewise for `sys_task_info`'s `TaskInfo`. -/
theorem syscall_translation_claim_counterexample :
    4088 / PAGE_SIZE ≠ (4088 + (TIMEVAL_SIZE - 1)) / PAGE_SIZE ∧
    (∃ l, byte_buffer_addrs straddlePT 4088 TIMEVAL_SIZE = some l) ∧
    sys_get_time_write_addrs straddlePT 4088 ≠
      byte_buffer_addrs straddlePT 4088 TIMEVAL_SIZE ∧
    sys_task_info_write_addrs straddlePT 4088 ≠
      byte_buffer_addrs straddlePT 4088 TASKINFO_SIZE := by
  refine ⟨by decide, ⟨_, rfl⟩, by decide, by decide⟩

/-! ### sys_task_info -/

/-- Claim C9 (amended): `sys_task_info` performs no null-pointer check: it
counts the syscall and, whenever the pointer's page translates (including the
null pointer), writes `status = Running`, the incremented per-syscall
counters, and the elapsed time since first scheduled, returning 0; when the
translation fails, the handler panics (`unwrap`) instead of returning -1. -/
theorem sys_task_info_spec (t : TCB) (pt : PageTable) (ptr now : Nat) :
    (∀ pa, translate_byte pt ptr = some pa →
      sys_task_info t pt ptr now = some (0, sys_call_add t SYSCALL_TASK_INFO,
        ⟨TaskStatus.Running, (sys_call_add t SYSCALL_TASK_INFO).call_count,
          now - (sys_call_add t SYSCALL_TASK_INFO).start_time⟩)) ∧
    (translate_byte pt ptr = none → sys_task_info t pt ptr now = none) := by
  constructor
  · intro pa h
    simp [sys_task_info, h]
  · intro h
    simp [sys_task_info, h]

/-- Witness for C9 (amended): with page 0 mapped, `sys_task_info` at pointer 0
returns 0 and reports Running status, the bumped counters, and
`now - start_time`. -/
theorem sys_task_info_spec_witness :
    sys_task_info sampleTCB straddlePT 0 50 =
      some (0, sys_call_add sampleTCB SYSCALL_TASK_INFO,
        ⟨TaskStatus.Running, (sys_call_add sampleTCB SYSCALL_TASK_INFO).call_count,
          50 - (sys_call_add sampleTCB SYSCALL_TASK_INFO).start_time⟩) :=
  (sys_task_info_spec sampleTCB straddlePT 0 50).1 20480 rfl

/-- Counterexample to C9 as stated: at the null pointer `sys_task_info`
returns 0 when page 0 happens to be mapped, and panics (no return at all) when
it is not — in neither case does it return the claimed -1. -/
theorem sys_task_info_null_counterexample :
    (sys_task_info sampleTCB straddlePT 0 50).map (fun r => r.1) = some 0 ∧
    sys_task_info sampleTCB [] 0 50 = none ∧ (0 : Int) ≠ -1 :=
  ⟨rfl, rfl, by norm_num⟩

/-! ### The fd-table syscalls -/

/-- Claim C10: `sys_fstat(fd, st)` indexes the fd table with no bounds check,
so it is total only under `fd < fd_table.len()` (out of range it panics,
modelled as `none`); in range it returns -1 when slot `fd` is empty and
otherwise writes the file's `Stat` through the translated pointer and returns
0 — unlike `sys_close`, `sys_read` and `sys_write`, which return -1 for any
`fd >= fd_table.len()`. -/
theorem sys_fstat_spec (tbl : FdTable) (fd : Nat) :
    (tbl.length ≤ fd →
      sys_fstat tbl fd = none ∧ sys_close tbl fd = (-1, tbl) ∧
      sys_read tbl fd = -1 ∧ sys_write tbl fd = -1) ∧
    (fd < tbl.length →
      (tbl.getD fd none = none → sys_fstat tbl fd = some (-1, none)) ∧
      (∀ f, tbl.getD fd none = some f →
        sys_fstat tbl fd = some (0, some f.stat_val))) := by
  constructor
  · intro h
    have h' : ¬(fd < tbl.length) := by omega
    exact ⟨by simp [sys_fstat, h'], by simp [sys_close, h],
      by simp [sys_read, h], by simp [sys_write, h]⟩
  · intro h
    have hg : tbl.get ⟨fd, h⟩ = tbl.getD fd none := by
      rw [getD_eq_getElem_of_lt tbl none h]
      simp [List.get_eq_getElem]
    constructor
    · intro hnone
      simp only [sys_fstat]
      rw [dif_pos h, hg, hnone]
    · intro f hf
      simp only [sys_fstat]
      rw [dif_pos h, hg, hf]

/-- Witness for C10: on the two-slot fixture table, fd 2 panics in
`sys_fstat` but yields -1 in `sys_close`/`sys_read`/`sys_write`; fd 0 (full
slot) returns 0 writing the `Stat` payload 77; fd 1 (empty slot) returns
-1. -/
theorem sys_fstat_spec_witness :
    (sys_fstat fdTblW 2 = none ∧ sys_close fdTblW 2 = (-1, fdTblW) ∧
      sys_read fdTblW 2 = -1 ∧ sys_write fdTblW 2 = -1) ∧
    sys_fstat fdTblW 0 = some (0, some 77) ∧
    sys_fstat fdTblW 1 = some (-1, none) :=
  ⟨(sys_fstat_spec fdTblW 2).1 (by decide),
    ((sys_fstat_spec fdTblW 0).2 (by decide)).2 ⟨true, true, 77, 5, 6⟩ rfl,
    ((sys_fstat_spec fdTblW 1).2 (by decide)).1 rfl⟩

end OS
